import Mathlib

/-!
Shallow embedding of `src/vidcom2.go` (the `vidcom` batch video compressor)
and proofs about the specified behavior of its transcode-and-verify
pipeline.

Modelling conventions:
* Go strings are Lean `String`s; the string helpers from Go's standard
  library that `vidcom2.go` uses (`strings.ToLower`, `strings.Contains`,
  `path/filepath.Ext`, `Split`, `Join`) are given executable models for
  the ASCII, slash-separated paths the program handles.
* Go `int64` sizes are modelled as `Int`; file sizes reported by `os.Stat`
  are nonnegative and are carried as `Nat` in the environment, cast to
  `Int` where the Go code computes with them. Overflow of `int64` is out
  of scope for the properties considered here.
* The operating system and the external `ffmpeg` process are modelled as
  an environment (`JobEnv`) recording which fallible operation fails and
  what the stat calls return; `processVideo` is a pure function of that
  environment mirroring the Go control flow line by line. Every fallible
  OS call the source makes has a failure flag, including the `os.Mkdir`
  and `os.Remove` calls whose errors the Go source discards: a failed
  removal leaves the artifact on disk and produces no message, exactly as
  in the source.
* Go `float64` percentage arithmetic is modelled exactly where it is
  defined: `goPct num den` is `some` of the rational value of
  `(num / den) * 100` when `den ≠ 0`, and `none` when `den = 0`, where
  `none` stands for the non-finite `NaN` / `±Inf` value that Go float
  division by zero produces. Rounding of finite values is not modelled;
  no property here depends on it.
-/

set_option autoImplicit false

namespace Vidcom

/-- Lowercases one character in the ASCII range, mapping `A`..`Z` to
`a`..`z` and leaving everything else unchanged. Models the effect of Go
`strings.ToLower` on the ASCII paths this program handles. -/
def lowerChar (c : Char) : Char :=
  if 'A' ≤ c ∧ c ≤ 'Z' then Char.ofNat (c.toNat + 32) else c

/-- Models Go `strings.ToLower` (ASCII fragment). -/
def goToLower (s : String) : String :=
  String.mk (s.data.map lowerChar)

/-- Does `needle` occur at the head of `hay`? Helper for `goContains`. -/
def headMatches : List Char → List Char → Bool
  | [], _ => true
  | _ :: _, [] => false
  | a :: as, b :: bs => a == b && headMatches as bs

/-- Does `needle` occur as a contiguous sublist of `hay`? -/
def containsSub : List Char → List Char → Bool
  | [], needle => needle.isEmpty
  | c :: rest, needle => headMatches needle (c :: rest) || containsSub rest needle

/-- Models Go `strings.Contains sub s`: substring containment. -/
def goContains (s sub : String) : Bool :=
  containsSub s.data sub.data

/-- Helper for `goExt`: walks the reversed character list of a path,
accumulating the characters after the last dot of the final
slash-separated element. -/
def goExtAux : List Char → List Char → String
  | [], _ => ""
  | c :: rest, acc =>
    if c = '/' then ""
    else if c = '.' then String.mk ('.' :: acc)
    else goExtAux rest (c :: acc)

/-- Models Go `path/filepath.Ext`: the suffix beginning at the final dot
in the final slash-separated element of the path, empty when that element
has no dot. -/
def goExt (p : String) : String :=
  goExtAux p.data.reverse []

/-- Models Go `path/filepath.Split`: splits a path immediately after the
final slash, returning the directory part (slash included) and the file
name part. -/
def goSplit (p : String) : String × String :=
  let rev := p.data.reverse
  let nameRev := rev.takeWhile (fun c => !(c == '/'))
  let dirRev := rev.drop nameRev.length
  (String.mk dirRev.reverse, String.mk nameRev.reverse)

/-- Models Go `path/filepath.Join` for the two-argument calls in
`processVideo`: concatenation with a single separator. The dot-segment
normalization of Go `Clean` is not modelled; the program only joins
`Split` output with fixed names. -/
def goJoin (dir name : String) : String :=
  if dir = "" then name
  else if dir.data.getLast? = some '/' then dir ++ name
  else dir ++ "/" ++ name

/-- The `isVideoFile` function of `vidcom2.go`: a file is a video file
when its extension, lowercased, is `.mp4` or `.mov`. -/
def isVideoFile (filePath : String) : Bool :=
  let fileExtension := goToLower (goExt filePath)
  fileExtension == ".mp4" || fileExtension == ".mov"

/-- The `isCompressedFile` function of `vidcom2.go`: a file counts as
already compressed when its lowercased path contains the token
`completed`. (The Go source defines this function but never calls it.) -/
def isCompressedFile (filePath : String) : Bool :=
  goContains (goToLower filePath) "completed"

/-- One entry handed to the walk callback of `filepath.Walk`, in visit
order: the path, whether it is a directory, and whether the walk reports
an error for this entry. The filesystem tree is presented to the
embedding as this entry sequence. -/
structure WalkEntry where
  path : String
  isDir : Bool
  errored : Bool
  deriving Repr, DecidableEq

/-- Loop of `findVideoFiles`: the walk callback returns the entry's error
(aborting the walk) when one is reported, counts directories, and appends
non-directory paths satisfying `isVideoFile` to the candidate list. -/
def findVideoFilesAux : List WalkEntry → List String → Int → List String × Int
  | [], files, dirCount => (files, dirCount)
  | e :: rest, files, dirCount =>
    if e.errored then (files, dirCount)
    else if e.isDir then findVideoFilesAux rest files (dirCount + 1)
    else if isVideoFile e.path then findVideoFilesAux rest (files ++ [e.path]) dirCount
    else findVideoFilesAux rest files dirCount

/-- The `findVideoFiles` function of `vidcom2.go`: collects candidate
video files from the walk and returns them with the directory count minus
one (excluding the starting directory itself). -/
def findVideoFiles (entries : List WalkEntry) : List String × Int :=
  let r := findVideoFilesAux entries [] 0
  (r.1, r.2 - 1)

/-- Go float64 percentage arithmetic `(num / den) * 100` as used by
`vidcom2.go`. The value is `some` of the exact rational when the
denominator is nonzero; `none` models the non-finite `NaN` (for `0/0`) or
`±Inf` (for `x/0`, `x ≠ 0`) float that Go produces on division by zero.
The Go source applies this computation unconditionally, with no
zero-denominator guard. -/
def goPct (num den : Int) : Option ℚ :=
  if den = 0 then none else some ((num : ℚ) / (den : ℚ) * 100)

/-- One status-logger message of `processVideo`, one constructor per
`statusLogger` call site in the Go source, carrying the computed
percentage where the source formats one. -/
inductive Msg where
  | startingWork
  | skipExists
  | warnStatOriginal
  | warnPipe
  | warnStart
  | warnRead
  | warnWait
  | warnStatOutput
  | warnLarger (pctIncrease : Option ℚ)
  | warnSame
  | infoCompressed (pctReduction : Option ℚ)
  deriving Repr, DecidableEq

/-- Which branch of `processVideo` produced the job's outcome (the
OutcomeRecord decision of the spec's data model, read off from the Go
control flow). -/
inductive Decision where
  | kept
  | discardedLarger
  | discardedSame
  | skipped
  | failedStatOriginal
  | failedPipe
  | failedStart
  | failedWait
  | failedStatOutput
  deriving Repr, DecidableEq

/-- Environment of one `processVideo` call: the path, what the stat calls
observe, which fallible operation fails, and what the external `ffmpeg`
process does. Fields appear in the order the Go code consults them. -/
structure JobEnv where
  /-- The input path handed to `processVideo`. -/
  filePath : String
  /-- Whether `os.Mkdir` on the marker directory fails. The Go source
  discards this error (`os.Mkdir(completedDir, 0755)` with no check), so
  no observable output of the model depends on this field. -/
  mkdirFails : Bool
  /-- Whether `os.Stat(compressedFilePath)` succeeds, i.e. the computed
  output path already exists before the job starts. -/
  outputExists : Bool
  /-- Whether `os.Stat(filePath)` on the original file fails. -/
  statOriginalFails : Bool
  /-- Size of the original file reported by `os.Stat` (nonnegative). -/
  originalSize : Nat
  /-- Whether `cmd.StderrPipe()` fails. -/
  pipeFails : Bool
  /-- Whether `cmd.Start()` fails. -/
  startFails : Bool
  /-- The diagnostic lines the scanner delivers from ffmpeg's stderr. -/
  ffmpegLines : List String
  /-- Whether `scanner.Err()` reports a mid-stream read failure. -/
  readFails : Bool
  /-- Whether `cmd.Wait()` fails (non-zero exit or kill). -/
  waitFails : Bool
  /-- Whether `os.Stat(compressedFilePath)` on the produced file fails. -/
  statOutputFails : Bool
  /-- Size of the produced file reported by `os.Stat` (nonnegative). -/
  compressedSize : Nat
  /-- Whether `os.Remove` on a discarded output fails. The Go source
  discards this error (`os.Remove(compressedFilePath)` with no check), so
  no status message depends on this field; only the artifact's on-disk
  existence after the job does. -/
  removeFails : Bool
  deriving Repr, DecidableEq

/-- Observable result of one `processVideo` call: the status-logger
messages in emission order, the lines forwarded to the ffmpeg logger,
whether `cmd.Start` was invoked, whether `os.Remove` was invoked on the
produced artifact, what is known about the output artifact's existence
when the call returns (`none` after a failure that may have left a
partial file), the branch taken, and the returned
`(originalSize, compressedSize)` pair of Go `int64` values. -/
structure JobResult where
  status : List Msg
  ffmpegLog : List String
  startAttempted : Bool
  removeAttempted : Bool
  outputExistsAfter : Option Bool
  decision : Decision
  ret : Int × Int
  deriving Repr, DecidableEq

/-- The output path computed by `processVideo`:
`fileDir/Completed/fileName` for `(fileDir, fileName) = Split(filePath)`. -/
def compressedFilePath (filePath : String) : String :=
  let s := goSplit filePath
  goJoin (goJoin s.1 "Completed") s.2

/-- The `processVideo` function of `vidcom2.go` as a pure function of its
environment, mirroring the Go control flow branch by branch:
skip when the output exists; return `(0, 0)` when the original cannot be
statted; return `(originalSize, 0)` on pipe, start, wait, or output-stat
failure; on a statable output, discard when it is not smaller and keep
otherwise. On discard the code invokes `os.Remove` and discards its
error: the artifact is gone afterwards only when that removal succeeds,
and a failed removal produces no message. -/
def processVideo (env : JobEnv) : JobResult :=
  if env.outputExists then
    { status := [Msg.startingWork, Msg.skipExists]
      ffmpegLog := []
      startAttempted := false
      removeAttempted := false
      outputExistsAfter := some true
      decision := Decision.skipped
      ret := (0, 0) }
  else if env.statOriginalFails then
    { status := [Msg.startingWork, Msg.warnStatOriginal]
      ffmpegLog := []
      startAttempted := false
      removeAttempted := false
      outputExistsAfter := some false
      decision := Decision.failedStatOriginal
      ret := (0, 0) }
  else
    let o : Int := env.originalSize
    if env.pipeFails then
      { status := [Msg.startingWork, Msg.warnPipe]
        ffmpegLog := []
        startAttempted := false
        removeAttempted := false
        outputExistsAfter := some false
        decision := Decision.failedPipe
        ret := (o, 0) }
    else if env.startFails then
      { status := [Msg.startingWork, Msg.warnStart]
        ffmpegLog := []
        startAttempted := true
        removeAttempted := false
        outputExistsAfter := some false
        decision := Decision.failedStart
        ret := (o, 0) }
    else
      let readMsgs := if env.readFails then [Msg.warnRead] else []
      if env.waitFails then
        { status := [Msg.startingWork] ++ readMsgs ++ [Msg.warnWait]
          ffmpegLog := env.ffmpegLines
          startAttempted := true
          removeAttempted := false
          outputExistsAfter := none
          decision := Decision.failedWait
          ret := (o, 0) }
      else if env.statOutputFails then
        { status := [Msg.startingWork] ++ readMsgs ++ [Msg.warnStatOutput]
          ffmpegLog := env.ffmpegLines
          startAttempted := true
          removeAttempted := false
          outputExistsAfter := none
          decision := Decision.failedStatOutput
          ret := (o, 0) }
      else
        let p : Int := env.compressedSize
        if p ≥ o then
          if p > o then
            { status := [Msg.startingWork] ++ readMsgs ++ [Msg.warnLarger (goPct (p - o) o)]
              ffmpegLog := env.ffmpegLines
              startAttempted := true
              removeAttempted := true
              outputExistsAfter := some env.removeFails
              decision := Decision.discardedLarger
              ret := (o, o) }
          else
            { status := [Msg.startingWork] ++ readMsgs ++ [Msg.warnSame]
              ffmpegLog := env.ffmpegLines
              startAttempted := true
              removeAttempted := true
              outputExistsAfter := some env.removeFails
              decision := Decision.discardedSame
              ret := (o, o) }
        else
          { status := [Msg.startingWork] ++ readMsgs ++ [Msg.infoCompressed (goPct (o - p) o)]
            ffmpegLog := env.ffmpegLines
            startAttempted := true
            removeAttempted := false
            outputExistsAfter := some true
            decision := Decision.kept
            ret := (o, p) }

/-- One iteration of the accumulation loop in `processVideos`: add the
job's returned pair to the running totals. -/
def accumulate (acc : Int × Int) (env : JobEnv) : Int × Int :=
  (acc.1 + (processVideo env).ret.1, acc.2 + (processVideo env).ret.2)

/-- The `processVideos` function of `vidcom2.go`: runs the jobs in order,
summing the returned original and compressed sizes into
`(totalOriginalSize, totalCompressedSize)`. -/
def processVideos (envs : List JobEnv) : Int × Int :=
  envs.foldl accumulate (0, 0)

/-- The aggregate saving that `main` reports:
`totalOriginalSize - totalCompressedSize`. -/
def totalSpaceSaved (totals : Int × Int) : Int :=
  totals.1 - totals.2

/-- The percentage that `main` reports:
`(float64(totalSpaceSaved) / float64(totalOriginalSize)) * 100`, computed
with no guard against a zero denominator. -/
def percentageSaved (totals : Int × Int) : Option ℚ :=
  goPct (totals.1 - totals.2) totals.1

/-- A reference environment for concrete instantiations: a clean run in
which every operation succeeds and a 100-byte input compresses to a
60-byte output. -/
def baseEnv : JobEnv :=
  { filePath := "a.mp4"
    mkdirFails := false
    outputExists := false
    statOriginalFails := false
    originalSize := 100
    pipeFails := false
    startFails := false
    ffmpegLines := ["frame=1"]
    readFails := false
    waitFails := false
    statOutputFails := false
    compressedSize := 60
    removeFails := false }

/-- A concrete walk sequence: a root directory holding `b.mp4` and a
`Completed` marker directory that holds an artifact `a.mp4` produced by
an earlier run, visited in the lexical order of `filepath.Walk`. -/
def walkWithCompleted : List WalkEntry :=
  [ { path := ".", isDir := true, errored := false }
  , { path := "Completed", isDir := true, errored := false }
  , { path := "Completed/a.mp4", isDir := false, errored := false }
  , { path := "b.mp4", isDir := false, errored := false } ]

/-- C1: the claim says a failed job contributes zero to the reported
savings. On the code it does not: a job whose subprocess fails to start
returns `(originalSize, 0)`, so a single 100-byte file whose ffmpeg
launch fails makes `main` report 100 bytes of total space saved even
though nothing was kept. This theorem evaluates the embedded code at that
failing input. -/
theorem failedStart_counts_original_as_saved :
    (processVideo { baseEnv with startFails := true }).decision = Decision.failedStart ∧
    (processVideo { baseEnv with startFails := true }).ret = (100, 0) ∧
    totalSpaceSaved (processVideos [{ baseEnv with startFails := true }]) = 100 ∧
    (100 : Int) ≠ 0 := by
  refine ⟨rfl, rfl, rfl, by decide⟩

/-- C2: the claim says every percentage computation is defined as 0 when
its denominator is 0. The code has no such guard: on an empty batch the
totals are `(0, 0)` and `main` computes `(0/0)*100` in `float64`,
producing `NaN` (modelled as `none`), not 0; and a job over a 0-byte
original whose output is larger computes `x/0` (`+Inf`, also `none`) for
the per-file increase percentage. -/
theorem zero_total_percentage_is_undefined :
    processVideos [] = (0, 0) ∧
    percentageSaved (processVideos []) = none ∧
    percentageSaved (processVideos []) ≠ some 0 ∧
    (processVideo { baseEnv with originalSize := 0, compressedSize := 5 }).status
      = [Msg.startingWork, Msg.warnLarger none] := by
  refine ⟨rfl, rfl, by decide, rfl⟩

/-- C4: the claim says paths classified as already processed (lowercased
path contains `completed`) never appear in the candidate list. On the
code they do: `isCompressedFile` is defined but never called, so the walk
over `walkWithCompleted` returns the marker-directory artifact
`Completed/a.mp4` as a candidate even though the classifier flags it. -/
theorem completed_paths_still_enumerated :
    isCompressedFile "Completed/a.mp4" = true ∧
    (findVideoFiles walkWithCompleted).1 = ["Completed/a.mp4", "b.mp4"] ∧
    (findVideoFiles walkWithCompleted).2 = 1 := by
  refine ⟨by decide, rfl, rfl⟩

/-- C5 counterexample: failure to create the marker directory is not
surfaced at all. The Go source discards the `os.Mkdir` error, so the
entire observable result of `processVideo` is identical whether or not
marker-directory creation fails: no distinct error (indeed no output
difference whatsoever) reports it. -/
theorem mkdir_failure_silently_ignored :
    ({ baseEnv with mkdirFails := true } : JobEnv).mkdirFails = true ∧
    ({ baseEnv with mkdirFails := false } : JobEnv).mkdirFails = false ∧
    processVideo { baseEnv with mkdirFails := true }
      = processVideo { baseEnv with mkdirFails := false } := by
  refine ⟨rfl, rfl, rfl⟩

/-- C5 (amended): pipe-creation failure, subprocess start failure,
non-zero subprocess exit, and mid-stream read failure are each surfaced
as a distinct status message (pairwise different constructors), and a
read failure does not prevent the wait-failure warning: the process wait
is still attempted. (Marker-directory creation failure, by contrast, is
silently ignored.) -/
theorem pipeline_failures_each_surfaced (env : JobEnv)
    (h1 : env.outputExists = false) (h2 : env.statOriginalFails = false) :
    (env.pipeFails = true →
      (processVideo env).status = [Msg.startingWork, Msg.warnPipe]) ∧
    (env.pipeFails = false → env.startFails = true →
      (processVideo env).status = [Msg.startingWork, Msg.warnStart]) ∧
    (env.pipeFails = false → env.startFails = false → env.readFails = true →
      Msg.warnRead ∈ (processVideo env).status) ∧
    (env.pipeFails = false → env.startFails = false → env.waitFails = true →
      Msg.warnWait ∈ (processVideo env).status) ∧
    (env.pipeFails = false → env.startFails = false → env.waitFails = false →
      env.statOutputFails = true →
      Msg.warnStatOutput ∈ (processVideo env).status) ∧
    [Msg.warnPipe, Msg.warnStart, Msg.warnRead, Msg.warnWait,
      Msg.warnStatOutput].Pairwise Ne := by
  refine ⟨?_, ?_, ?_, ?_, ?_, by decide⟩
  · intro hp
    simp [processVideo, h1, h2, hp]
  · intro hp hs
    simp [processVideo, h1, h2, hp, hs]
  · intro hp hs hr
    simp only [processVideo, h1, h2, hp, hs, hr]
    split_ifs <;> simp_all
  · intro hp hs hw
    simp only [processVideo, h1, h2, hp, hs, hw]
    split_ifs <;> simp_all
  · intro hp hs hw ho
    simp only [processVideo, h1, h2, hp, hs, hw, ho]
    split_ifs <;> simp_all

/-- C5 witness: instantiation of the amended theorem at a concrete
pipe-failure environment. -/
theorem pipeline_failures_each_surfaced_witness :
    (processVideo { baseEnv with pipeFails := true }).status
      = [Msg.startingWork, Msg.warnPipe] :=
  (pipeline_failures_each_surfaced { baseEnv with pipeFails := true } rfl rfl).1 rfl

/-- C7: when the computed output path already exists, the job
short-circuits with the skip outcome: the only messages are the start
line and the skip warning, the subprocess is never launched, the return
value is `(0, 0)`, and folding it into the running totals changes
neither side. -/
theorem existing_output_short_circuits (env : JobEnv)
    (h : env.outputExists = true) :
    (processVideo env).status = [Msg.startingWork, Msg.skipExists] ∧
    (processVideo env).startAttempted = false ∧
    (processVideo env).decision = Decision.skipped ∧
    (processVideo env).ret = (0, 0) ∧
    (∀ t : Int × Int, accumulate t env = t) := by
  refine ⟨?_, ?_, ?_, ?_, ?_⟩ <;>
    simp [processVideo, h, accumulate]

/-- C7 witness: instantiation at a concrete environment whose output
path already exists, with the totals conjunct applied at `(7, 3)`. -/
theorem existing_output_short_circuits_witness :
    (processVideo { baseEnv with outputExists := true }).status
        = [Msg.startingWork, Msg.skipExists] ∧
    (processVideo { baseEnv with outputExists := true }).startAttempted = false ∧
    (processVideo { baseEnv with outputExists := true }).ret = (0, 0) ∧
    accumulate (7, 3) { baseEnv with outputExists := true } = (7, 3) :=
  ⟨(existing_output_short_circuits { baseEnv with outputExists := true } rfl).1,
   (existing_output_short_circuits { baseEnv with outputExists := true } rfl).2.1,
   (existing_output_short_circuits { baseEnv with outputExists := true } rfl).2.2.2.1,
   (existing_output_short_circuits { baseEnv with outputExists := true } rfl).2.2.2.2 (7, 3)⟩

/-- C8: after the output-exists check passes and the original file stats
successfully, each of the four listed failures — pipe creation,
subprocess start, non-zero subprocess exit, output stat — makes the job
return `(originalSize, 0)`. -/
theorem failures_return_original_and_zero (env : JobEnv)
    (h1 : env.outputExists = false) (h2 : env.statOriginalFails = false) :
    (env.pipeFails = true →
      (processVideo env).ret = ((env.originalSize : Int), 0)) ∧
    (env.pipeFails = false → env.startFails = true →
      (processVideo env).ret = ((env.originalSize : Int), 0)) ∧
    (env.pipeFails = false → env.startFails = false → env.waitFails = true →
      (processVideo env).ret = ((env.originalSize : Int), 0)) ∧
    (env.pipeFails = false → env.startFails = false → env.waitFails = false →
      env.statOutputFails = true →
      (processVideo env).ret = ((env.originalSize : Int), 0)) := by
  refine ⟨?_, ?_, ?_, ?_⟩
  · intro hp
    simp [processVideo, h1, h2, hp]
  · intro hp hs
    simp [processVideo, h1, h2, hp, hs]
  · intro hp hs hw
    simp [processVideo, h1, h2, hp, hs, hw]
  · intro hp hs hw ho
    simp [processVideo, h1, h2, hp, hs, hw, ho]

/-- C8 witness: instantiation at a concrete environment whose ffmpeg
subprocess exits non-zero on a 100-byte input. -/
theorem failures_return_original_and_zero_witness :
    (processVideo { baseEnv with waitFails := true }).ret = ((100 : Int), 0) :=
  (failures_return_original_and_zero { baseEnv with waitFails := true }
    rfl rfl).2.2.1 rfl rfl rfl

/-- C3 counterexample: a discarded artifact can survive the job. With a
110-byte output produced from a 100-byte original and a failing
`os.Remove`, the outcome is a discard yet the artifact still exists on
disk when the job completes — and the status messages are identical to
those of a successful removal, because the Go source discards the
`os.Remove` error. -/
theorem discarded_artifact_survives_failed_remove :
    (processVideo { baseEnv with compressedSize := 110, removeFails := true }).decision
        = Decision.discardedLarger ∧
    (processVideo { baseEnv with compressedSize := 110, removeFails := true }).outputExistsAfter
        = some true ∧
    (processVideo { baseEnv with compressedSize := 110, removeFails := true }).status
        = (processVideo { baseEnv with compressedSize := 110 }).status := by
  refine ⟨rfl, rfl, rfl⟩

/-- C3 (amended): for a job that runs to a statable output, the outcome
is kept exactly when the produced size is smaller than the original and
discarded (with larger and same-size distinguished) exactly when it is
not; on every discard the job invokes `os.Remove` on the produced
artifact, and the artifact is absent afterwards exactly when that
removal succeeds (the code discards the removal error, so a failed
deletion leaves the artifact on disk). -/
theorem keep_iff_smaller_discard_iff_not (env : JobEnv)
    (h1 : env.outputExists = false) (h2 : env.statOriginalFails = false)
    (h3 : env.pipeFails = false) (h4 : env.startFails = false)
    (h5 : env.waitFails = false) (h6 : env.statOutputFails = false) :
    ((processVideo env).decision = Decision.kept ↔
      env.compressedSize < env.originalSize) ∧
    (((processVideo env).decision = Decision.discardedLarger ∨
      (processVideo env).decision = Decision.discardedSame) ↔
      env.originalSize ≤ env.compressedSize) ∧
    ((processVideo env).decision = Decision.discardedLarger ↔
      env.originalSize < env.compressedSize) ∧
    ((processVideo env).decision = Decision.discardedSame ↔
      env.compressedSize = env.originalSize) ∧
    (env.originalSize ≤ env.compressedSize →
      (processVideo env).removeAttempted = true ∧
      (processVideo env).outputExistsAfter = some env.removeFails) := by
  rcases lt_trichotomy ((env.compressedSize : Int)) ((env.originalSize : Int)) with
    hlt | heq | hgt
  · have hc : ¬ ((env.originalSize : Int) ≤ (env.compressedSize : Int)) := not_le.mpr hlt
    simp only [processVideo, h1, h2, h3, h4, h5, h6, ge_iff_le, gt_iff_lt]
    simp [hc]
    omega
  · have hle : (env.originalSize : Int) ≤ (env.compressedSize : Int) := le_of_eq heq.symm
    have hnlt : ¬ ((env.originalSize : Int) < (env.compressedSize : Int)) := by omega
    simp only [processVideo, h1, h2, h3, h4, h5, h6, ge_iff_le, gt_iff_lt]
    simp [hle, hnlt]
    omega
  · have hle : (env.originalSize : Int) ≤ (env.compressedSize : Int) := le_of_lt hgt
    simp only [processVideo, h1, h2, h3, h4, h5, h6, ge_iff_le, gt_iff_lt]
    simp [hle, hgt]
    omega

/-- C3 witness: instantiation at a 100-byte original with a 110-byte
output and a succeeding removal, in which the outcome is a discard and
the artifact is gone afterwards. -/
theorem keep_iff_smaller_discard_iff_not_witness :
    ((processVideo { baseEnv with compressedSize := 110 }).decision
        = Decision.kept ↔ (110 : Nat) < 100) ∧
    (((processVideo { baseEnv with compressedSize := 110 }).decision
        = Decision.discardedLarger ∨
      (processVideo { baseEnv with compressedSize := 110 }).decision
        = Decision.discardedSame) ↔ (100 : Nat) ≤ 110) ∧
    ((processVideo { baseEnv with compressedSize := 110 }).decision
        = Decision.discardedLarger ↔ (100 : Nat) < 110) ∧
    ((processVideo { baseEnv with compressedSize := 110 }).decision
        = Decision.discardedSame ↔ (110 : Nat) = 100) ∧
    ((100 : Nat) ≤ 110 →
      (processVideo { baseEnv with compressedSize := 110 }).removeAttempted = true ∧
      (processVideo { baseEnv with compressedSize := 110 }).outputExistsAfter
        = some false) :=
  keep_iff_smaller_discard_iff_not { baseEnv with compressedSize := 110 }
    rfl rfl rfl rfl rfl rfl

/-- C6: a job whose statable output is discarded (produced size at least
the original size) returns the original size on both sides of the
ledger, so folding it into the running totals leaves the reported total
space saved unchanged. -/
theorem discard_has_zero_net_effect (env : JobEnv)
    (h1 : env.outputExists = false) (h2 : env.statOriginalFails = false)
    (h3 : env.pipeFails = false) (h4 : env.startFails = false)
    (h5 : env.waitFails = false) (h6 : env.statOutputFails = false)
    (hge : env.originalSize ≤ env.compressedSize) :
    (processVideo env).ret = ((env.originalSize : Int), (env.originalSize : Int)) ∧
    (∀ t : Int × Int, totalSpaceSaved (accumulate t env) = totalSpaceSaved t) := by
  have hle : (env.originalSize : Int) ≤ (env.compressedSize : Int) := by
    exact_mod_cast hge
  have hret :
      (processVideo env).ret = ((env.originalSize : Int), (env.originalSize : Int)) := by
    rcases lt_or_eq_of_le hle with hlt | heq
    · simp only [processVideo, h1, h2, h3, h4, h5, h6, ge_iff_le, gt_iff_lt]
      simp [hle, hlt]
    · have hnlt : ¬ ((env.originalSize : Int) < (env.compressedSize : Int)) := by omega
      simp only [processVideo, h1, h2, h3, h4, h5, h6, ge_iff_le, gt_iff_lt]
      simp [hle, hnlt]
  refine ⟨hret, ?_⟩
  intro t
  simp only [accumulate, hret, totalSpaceSaved]
  ring

/-- C6 witness: instantiation at a 100-byte input producing a 110-byte
output, with the totals conjunct applied at `(7, 3)`. -/
theorem discard_has_zero_net_effect_witness :
    (processVideo { baseEnv with compressedSize := 110 }).ret
        = ((100 : Int), (100 : Int)) ∧
    totalSpaceSaved (accumulate (7, 3) { baseEnv with compressedSize := 110 })
        = totalSpaceSaved (7, 3) :=
  ⟨(discard_has_zero_net_effect { baseEnv with compressedSize := 110 }
      rfl rfl rfl rfl rfl rfl (by decide)).1,
   (discard_has_zero_net_effect { baseEnv with compressedSize := 110 }
      rfl rfl rfl rfl rfl rfl (by decide)).2 (7, 3)⟩

/-- C9: `isVideoFile` returns true exactly when the path's extension,
compared case-insensitively, is `.mp4` or `.mov`; as a plain function of
the path it has no side effects. -/
theorem isVideoFile_iff_case_insensitive_ext (p : String) :
    isVideoFile p = true ↔
      (goToLower (goExt p) = goToLower ".mp4" ∨
       goToLower (goExt p) = goToLower ".mov") := by
  have hmp4 : goToLower ".mp4" = ".mp4" := by decide
  have hmov : goToLower ".mov" = ".mov" := by decide
  simp only [isVideoFile, Bool.or_eq_true, beq_iff_eq, hmp4, hmov]

/-- Helper for the accumulation invariant: every branch of `processVideo`
returns a nonnegative compressed size that is at most the returned
original size. -/
theorem processVideo_ret_bounds (env : JobEnv) :
    0 ≤ (processVideo env).ret.2 ∧ (processVideo env).ret.2 ≤ (processVideo env).ret.1 := by
  simp only [processVideo]
  split_ifs <;> simp_all <;> omega

/-- Helper for the accumulation invariant: folding any suffix of jobs
into totals whose compressed side is bounded by the original side
preserves that bound. -/
theorem foldl_accumulate_bounds (envs : List JobEnv) :
    ∀ t : Int × Int, t.2 ≤ t.1 →
      (envs.foldl accumulate t).2 ≤ (envs.foldl accumulate t).1 := by
  induction envs with
  | nil =>
    intro t h
    simpa using h
  | cons e rest ih =>
    intro t h
    simp only [List.foldl_cons]
    apply ih
    have hb := processVideo_ret_bounds e
    simp only [accumulate]
    omega

/-- C10: every job returns a kept size between 0 and its returned
original size, so the accumulated compressed total never exceeds the
original total and the reported total space saved is never negative. -/
theorem total_kept_le_total_original (envs : List JobEnv) :
    (∀ env : JobEnv,
      0 ≤ (processVideo env).ret.2 ∧
      (processVideo env).ret.2 ≤ (processVideo env).ret.1) ∧
    (processVideos envs).2 ≤ (processVideos envs).1 ∧
    0 ≤ totalSpaceSaved (processVideos envs) := by
  have h := foldl_accumulate_bounds envs (0, 0) (le_refl 0)
  exact ⟨processVideo_ret_bounds, h, by
    simp only [totalSpaceSaved, processVideos] at *
    omega⟩

end Vidcom
